import Mathlib

/-
Verification development for the filter-facet aggregation services of the
taiga-back repository (taiga/projects/userstories/services.py), the
attribute-swapping decorator (taiga/base/decorators.py), and the
user-story closed-state calculation.

The relational store is embedded shallowly: tables are lists of records, a
Django queryset's WHERE clause is an arbitrary boolean predicate on user
stories, and each hand-written SQL query of the source is translated
row-by-row into a pure list computation.  Python's `sorted` is modelled by
`List.insertionSort` (a stable claim about tie order is never made, so any
permutation-and-sorted implementation models it), and SQL `UNION` by
`List.dedup`.
-/

namespace Taiga

/-- Row of the `userstories_userstory` table, restricted to the columns the
aggregation queries read. -/
structure UserStory where
  id : Nat
  project_id : Nat
  status_id : Option Nat
  assigned_to_id : Option Nat
  owner_id : Option Nat
  tags : Option (List String)
deriving DecidableEq

/-- Row of the `projects_userstorystatus` table (columns used by the
statuses facet query). -/
structure Status where
  id : Nat
  name : String
  color : String
  order : Nat
  project_id : Nat
deriving DecidableEq

/-- Row of the `users_user` table (columns used by the facet queries). -/
structure User where
  id : Nat
  full_name : String
  is_system : Bool
deriving DecidableEq

/-- Row of the `projects_membership` table (columns used by the facet
queries); `user_id` is nullable. -/
structure Membership where
  project_id : Nat
  user_id : Option Nat
deriving DecidableEq

/-- The relational store: one list per table; `projects` holds the ids of
the `projects_project` rows. -/
structure DB where
  projects : List Nat
  userstories : List UserStory
  statuses : List Status
  users : List User
  memberships : List Membership
deriving DecidableEq

/-- The rows ranged over by each count subquery:
`FROM userstories_userstory INNER JOIN projects_project ON
(userstories_userstory.project_id = projects_project.id) WHERE {where}`,
with `{where}` the spliced predicate of the dimension's queryset. -/
def filteredCollection (db : DB) (pred : UserStory → Bool) : List UserStory :=
  db.userstories.filter (fun us => db.projects.contains us.project_id && pred us)

/-- SQL equality `x = y` where the right-hand side may be NULL: comparison
with NULL is never true. -/
def sqlEqOpt (x : Option Nat) (y : Option Nat) : Bool :=
  match y with
  | none => false
  | some v => x == some v

/-- Code-point lexicographic comparison of character lists, the order
Python's `sorted` uses on strings. -/
def charListLe : List Char → List Char → Bool
  | [], _ => true
  | _ :: _, [] => false
  | a :: as, b :: bs =>
    if a.toNat < b.toNat then true
    else if b.toNat < a.toNat then false
    else charListLe as bs

/-- Code-point lexicographic comparison of strings ("alphabetical" order
of the facet sort keys). -/
def strLe (a b : String) : Bool := charListLe a.data b.data

/-- Output record of the statuses facet (`{"id", "name", "color", "order",
"count"}` dict built by `_get_userstories_statuses`). -/
structure StatusFacetRec where
  id : Nat
  name : String
  color : String
  order : Nat
  count : Nat
deriving DecidableEq

/-- Output record of the assigned-to facet (`{"id", "full_name", "count"}`
dict built by `_get_userstories_assigned_to`); `id` is null for the
unassigned bucket. -/
structure PersonFacetRec where
  id : Option Nat
  full_name : String
  count : Nat
deriving DecidableEq

/-- Output record of the owners facet (`{"id", "full_name", "count"}` dict
built by `_get_userstories_owners`); the id column comes from `users_user`
and is never null. -/
structure OwnerFacetRec where
  id : Nat
  full_name : String
  count : Nat
deriving DecidableEq

/-- Output record of the tags facet (`{"name", "count"}` dict built by
`_get_userstories_tags`). -/
structure TagFacetRec where
  name : String
  count : Nat
deriving DecidableEq

/-- One row of the statuses facet query: the status columns plus the
correlated subquery `count(*) ... WHERE {where} AND status_id = id`,
translated by `tr` (the `_()` gettext call). -/
def statusRow (db : DB) (tr : String → String) (pred : UserStory → Bool)
    (st : Status) : StatusFacetRec :=
  { id := st.id
    name := tr st.name
    color := st.color
    order := st.order
    count := (filteredCollection db pred).countP (fun us => us.status_id == some st.id) }

/-- Embedding of `_get_userstories_statuses`: one row per status of the
project, each with its correlated count, sorted by the status `order`. -/
def _get_userstories_statuses (db : DB) (tr : String → String) (project_id : Nat)
    (pred : UserStory → Bool) : List StatusFacetRec :=
  List.insertionSort (fun a b => a.order ≤ b.order)
    ((db.statuses.filter (fun st => st.project_id == project_id)).map (statusRow db tr pred))

/-- A raw row of the assigned-to UNION query: nullable user id, nullable
full name, and the correlated count. -/
abbrev SqlRow := Option Nat × Option String × Nat

/-- First branch of the assigned-to UNION: `SELECT NULL, NULL, (count of
filtered stories with assigned_to_id IS NULL)`. -/
def unassignedRow (db : DB) (pred : UserStory → Bool) : SqlRow :=
  (none, none, (filteredCollection db pred).countP (fun us => us.assigned_to_id == none))

/-- Second branch of the assigned-to UNION: one row per membership of the
project with a non-null user id, inner-joined with `users_user`; the
correlated count compares `assigned_to_id` with the membership's user id. -/
def assignedMemberRows (db : DB) (project_id : Nat) (pred : UserStory → Bool) : List SqlRow :=
  (db.memberships.filter (fun m => m.project_id == project_id && m.user_id.isSome)).flatMap
    (fun m => (db.users.filter (fun u => m.user_id == some u.id)).map
      (fun u => ((some u.id : Option Nat), (some u.full_name : Option String),
                 (filteredCollection db pred).countP (fun us => us.assigned_to_id == m.user_id))))

/-- Python row post-processing of `_get_userstories_assigned_to`:
`{"id": id, "full_name": full_name or "", "count": count}` (both `None`
and the empty string become the empty string). -/
def rowToPerson (r : SqlRow) : PersonFacetRec :=
  { id := r.1, full_name := (r.2.1).getD "", count := r.2.2 }

/-- Embedding of `_get_userstories_assigned_to`: the two UNION branches
(UNION removes duplicate rows, modelled by `List.dedup`), post-processed
and sorted by full name. -/
def _get_userstories_assigned_to (db : DB) (project_id : Nat)
    (pred : UserStory → Bool) : List PersonFacetRec :=
  List.insertionSort (fun a b => strLe a.full_name b.full_name = true)
    (((unassignedRow db pred :: assignedMemberRows db project_id pred).dedup).map rowToPerson)

/-- Rows of the owners query:
`projects_membership RIGHT OUTER JOIN users_user` filtered by
`(membership.project_id = %s AND membership.user_id IS NOT NULL) OR
users_user.is_system IS TRUE`.  A user with no membership row at all
appears once padded with NULL membership columns, so its correlated count
compares `owner_id` with NULL and is always 0. -/
def ownersRows (db : DB) (project_id : Nat) (pred : UserStory → Bool) : List OwnerFacetRec :=
  db.users.flatMap (fun u =>
    let ms := db.memberships.filter (fun m => m.user_id == some u.id)
    if ms.isEmpty then
      if u.is_system then
        [{ id := u.id, full_name := u.full_name,
           count := (filteredCollection db pred).countP
             (fun us => sqlEqOpt us.owner_id none) }]
      else []
    else
      (ms.filter (fun m => (m.project_id == project_id && m.user_id.isSome) || u.is_system)).map
        (fun m => { id := u.id, full_name := u.full_name,
                    count := (filteredCollection db pred).countP
                      (fun us => sqlEqOpt us.owner_id m.user_id) }))

/-- Embedding of `_get_userstories_owners`: the joined rows, keeping only
those with `count > 0`, sorted by full name. -/
def _get_userstories_owners (db : DB) (project_id : Nat)
    (pred : UserStory → Bool) : List OwnerFacetRec :=
  List.insertionSort (fun a b => strLe a.full_name b.full_name = true)
    ((ownersRows db project_id pred).filter (fun r => 0 < r.count))

/-- The concatenation of every story's tag list, skipping stories whose
`tags` column is NULL (the `if t_list is None: continue` loop). -/
def allTags (stories : List UserStory) : List String :=
  stories.flatMap (fun s => s.tags.getD [])

/-- Embedding of `_get_userstories_tags`: one record per distinct tag value
(`set(tags)`, modelled by `List.dedup`) carrying its number of occurrences
(`tags.count(e)`), sorted by tag name. -/
def _get_userstories_tags (stories : List UserStory) : List TagFacetRec :=
  List.insertionSort (fun a b => strLe a.name b.name = true)
    (((allTags stories).dedup).map
      (fun e => { name := e, count := (allTags stories).count e }))

/-- Value stored under one key of the ordered mapping returned by
`get_userstories_filters_data`. -/
inductive FilterValue where
  | statuses (l : List StatusFacetRec)
  | assigned (l : List PersonFacetRec)
  | owners (l : List OwnerFacetRec)
  | tags (l : List TagFacetRec)
deriving DecidableEq

/-- The four per-dimension querysets handed to
`get_userstories_filters_data`, each reduced to its WHERE predicate. -/
structure Querysets where
  statuses : UserStory → Bool
  assigned_to : UserStory → Bool
  owners : UserStory → Bool
  tags : UserStory → Bool

/-- Embedding of `get_userstories_filters_data`: the OrderedDict with the
four facet lists in declaration order.  The tags dimension evaluates its
queryset directly (no hand-written SQL, hence no project join). -/
def get_userstories_filters_data (db : DB) (tr : String → String) (project_id : Nat)
    (qs : Querysets) : List (String × FilterValue) :=
  [("statuses", FilterValue.statuses (_get_userstories_statuses db tr project_id qs.statuses)),
   ("assigned_to", FilterValue.assigned (_get_userstories_assigned_to db project_id qs.assigned_to)),
   ("owners", FilterValue.owners (_get_userstories_owners db project_id qs.owners)),
   ("tags", FilterValue.tags (_get_userstories_tags (db.userstories.filter qs.tags)))]

/-- Fallible variant of `get_userstories_filters_data` modelling Python
exception propagation: each dimension's query either yields its facet list
or raises (is an `Except.error`); the OrderedDict literal evaluates the
four calls in order, so the first raising dimension aborts the whole
aggregation and no partial mapping is ever produced. -/
def get_userstories_filters_dataE {ε : Type} (s : Except ε (List StatusFacetRec))
    (a : Except ε (List PersonFacetRec)) (o : Except ε (List OwnerFacetRec))
    (t : Except ε (List TagFacetRec)) : Except ε (List (String × FilterValue)) := do
  let sv ← s
  let av ← a
  let ov ← o
  let tv ← t
  pure [("statuses", FilterValue.statuses sv),
        ("assigned_to", FilterValue.assigned av),
        ("owners", FilterValue.owners ov),
        ("tags", FilterValue.tags tv)]

/-- Python object state for `change_instance_attr`: a map from attribute
names to values; `none` models an absent attribute, whose read raises
`AttributeError`. -/
def Attrs (α : Type) := String → Option α

/-- Embedding of `instance.__setattr__(name, value)`. -/
def setattr {α : Type} (inst : Attrs α) (name : String) (v : α) : Attrs α :=
  fun n => if n = name then some v else inst n

/-- Embedding of the decorator `change_instance_attr(name, new_value)`
applied to `fn`: the wrapped function maps an instance state to a return
value and a final instance state.  Reading the attribute succeeds iff it
is present (`AttributeError` otherwise, modelled by the `none` branch, in
which case nothing is changed before or after the call). -/
def change_instance_attr {α β : Type} (name : String) (new_value : α)
    (fn : Attrs α → β × Attrs α) (inst : Attrs α) : β × Attrs α :=
  match inst name with
  | some old_value =>
      let step := fn (setattr inst name new_value)
      (step.1, setattr step.2 name old_value)
  | none => fn inst

/-- Status of a task (`projects.TaskStatus`), restricted to the flag read
by `calculate_userstory_is_closed`. -/
structure TaskStatusRec where
  is_closed : Bool
deriving DecidableEq

/-- Task of a user story, restricted to the `status.is_closed` access
chain of `calculate_userstory_is_closed`. -/
structure TaskRec where
  status : TaskStatusRec
deriving DecidableEq

/-- Status of a user story (`projects.UserStoryStatus`), restricted to the
flag read by `calculate_userstory_is_closed`. -/
structure StoryStatusRec where
  is_closed : Bool
deriving DecidableEq

/-- User story as read by `calculate_userstory_is_closed`: a nullable
status and the related tasks. -/
structure StoryRec where
  status : Option StoryStatusRec
  tasks : List TaskRec
deriving DecidableEq

/-- Embedding of `calculate_userstory_is_closed`. -/
def calculate_userstory_is_closed (user_story : StoryRec) : Bool :=
  match user_story.status with
  | none => false
  | some st =>
    if user_story.tasks.length == 0 then
      st.is_closed
    else if user_story.tasks.all (fun task => task.status.is_closed) then
      true
    else
      false

/-- Concrete store used to instantiate the facet theorems: one project
with two statuses, two members and three stories. -/
def exampleDB : DB :=
  { projects := [1]
    userstories :=
      [{ id := 1, project_id := 1, status_id := some 1, assigned_to_id := some 10,
         owner_id := some 10, tags := some ["bug", "ui"] },
       { id := 2, project_id := 1, status_id := some 1, assigned_to_id := some 10,
         owner_id := some 10, tags := some ["bug"] },
       { id := 3, project_id := 1, status_id := some 2, assigned_to_id := none,
         owner_id := some 11, tags := some [] }]
    statuses :=
      [{ id := 2, name := "Done", color := "green", order := 2, project_id := 1 },
       { id := 1, name := "New", color := "red", order := 1, project_id := 1 }]
    users :=
      [{ id := 10, full_name := "Alice", is_system := false },
       { id := 11, full_name := "Bob", is_system := false }]
    memberships := [{ project_id := 1, user_id := some 10 },
                    { project_id := 1, user_id := some 11 }] }

/-- Store with a system account that owns a story of the project but has
no membership row anywhere. -/
def dbSystemOwner : DB :=
  { projects := [1]
    userstories := [{ id := 1, project_id := 1, status_id := none, assigned_to_id := none,
                      owner_id := some 7, tags := none }]
    statuses := []
    users := [{ id := 7, full_name := "Sys", is_system := true }]
    memberships := [] }

/-- Store with a member of project 1 whose only assigned story lives in
project 2, and a queryset predicate broader than project 1. -/
def dbCross : DB :=
  { projects := [1, 2]
    userstories := [{ id := 50, project_id := 2, status_id := none,
                      assigned_to_id := some 10, owner_id := some 10, tags := none }]
    statuses := []
    users := [{ id := 10, full_name := "Alice", is_system := false }]
    memberships := [{ project_id := 1, user_id := some 10 }] }

/-- Store with one project owning one status and no stories at all. -/
def dbOneStatus : DB :=
  { projects := [1]
    userstories := []
    statuses := [{ id := 1, name := "New", color := "red", order := 1, project_id := 1 }]
    users := []
    memberships := [] }

/-- Querysets whose predicates match nothing. -/
def qsNone : Querysets :=
  { statuses := fun _ => false
    assigned_to := fun _ => false
    owners := fun _ => false
    tags := fun _ => false }



/-- Totality of the code-point order on character lists. -/
theorem charListLe_total : ∀ (as bs : List Char), charListLe as bs = true ∨ charListLe bs as = true := by
  intro as
  induction as with
  | nil => intro bs; left; rfl
  | cons a as ih =>
    intro bs
    cases bs with
    | nil => right; rfl
    | cons b bs =>
      by_cases h1 : a.toNat < b.toNat
      · left; simp [charListLe, h1]
      · by_cases h2 : b.toNat < a.toNat
        · right; simp [charListLe, h2]
        · rcases ih bs with h | h
          · left; simp [charListLe, h1, h2, h]
          · right; simp [charListLe, h1, h2, h]

/-- Transitivity of the code-point order on character lists. -/
theorem charListLe_trans : ∀ (as bs cs : List Char), charListLe as bs = true →
    charListLe bs cs = true → charListLe as cs = true := by
  intro as
  induction as with
  | nil => intro bs cs _ _; rfl
  | cons a as ih =>
    intro bs cs hab hbc
    cases bs with
    | nil => simp [charListLe] at hab
    | cons b bs =>
      cases cs with
      | nil => simp [charListLe] at hbc
      | cons c cs =>
        rcases Nat.lt_trichotomy a.toNat b.toNat with h1 | h1 | h1
        · rcases Nat.lt_trichotomy b.toNat c.toNat with h2 | h2 | h2
          · simp [charListLe, Nat.lt_trans h1 h2]
          · simp [charListLe, h2 ▸ h1]
          · have hnb : ¬ b.toNat < c.toNat := Nat.lt_asymm h2
            simp [charListLe, hnb, h2] at hbc
        · rcases Nat.lt_trichotomy b.toNat c.toNat with h2 | h2 | h2
          · simp [charListLe, h1 ▸ h2]
          · have hac : a.toNat = c.toNat := h1.trans h2
            have h3 : ¬ a.toNat < b.toNat := by omega
            have h4 : ¬ b.toNat < a.toNat := by omega
            have h5 : ¬ b.toNat < c.toNat := by omega
            have h6 : ¬ c.toNat < b.toNat := by omega
            have h7 : ¬ a.toNat < c.toNat := by omega
            have h8 : ¬ c.toNat < a.toNat := by omega
            simp only [charListLe, if_neg h3, if_neg h4] at hab
            simp only [charListLe, if_neg h5, if_neg h6] at hbc
            simp only [charListLe, if_neg h7, if_neg h8]
            exact ih bs cs hab hbc
          · have hnb : ¬ b.toNat < c.toNat := Nat.lt_asymm h2
            simp [charListLe, hnb, h2] at hbc
        · have hna : ¬ a.toNat < b.toNat := Nat.lt_asymm h1
          simp [charListLe, hna, h1] at hab

/-- Totality of the code-point order on strings. -/
theorem strLe_total (a b : String) : strLe a b = true ∨ strLe b a = true :=
  charListLe_total a.data b.data

/-- Transitivity of the code-point order on strings. -/
theorem strLe_trans {a b c : String} (h1 : strLe a b = true) (h2 : strLe b c = true) :
    strLe a c = true :=
  charListLe_trans a.data b.data c.data h1 h2

/-- A list whose only element satisfying `q` is `a`, occurring exactly
once, filters to the singleton `[a]`. -/
theorem filter_eq_singleton_of_count_one {α : Type} [DecidableEq α] {q : α → Bool} {a : α} :
    ∀ {l : List α}, q a = true → List.count a l = 1 → (∀ x ∈ l, q x = true → x = a) →
    l.filter q = [a] := by
  intro l
  induction l with
  | nil => intro _ hc _; simp at hc
  | cons x xs ih =>
    intro hq hc hall
    by_cases hx : q x = true
    · have hxa : x = a := hall x (List.mem_cons_self x xs) hx
      subst hxa
      rw [List.count_cons_self] at hc
      have hc0 : List.count x xs = 0 := by omega
      have hnotmem : x ∉ xs := List.count_eq_zero.mp hc0
      have hnil : xs.filter q = [] := by
        rw [List.filter_eq_nil_iff]
        intro y hy hqy
        exact hnotmem ((hall y (List.mem_cons_of_mem x hy) hqy) ▸ hy)
      simp [List.filter_cons, hx, hnil]
    · have hxa : x ≠ a := fun he => hx (he ▸ hq)
      rw [List.count_cons_of_ne (fun he => hxa he.symm) xs] at hc
      rw [List.filter_cons, if_neg hx]
      exact ih hq hc (fun y hy hqy => hall y (List.mem_cons_of_mem x hy) hqy)

/-- Filtering a mapped list down to the image of the unique preimage
satisfying the lifted predicate. -/
theorem filter_map_eq_singleton {α β : Type} [DecidableEq α] (f : α → β) (q : β → Bool)
    (l : List α) (a : α) (hq : q (f a) = true) (hcount : List.count a l = 1)
    (hall : ∀ x ∈ l, q (f x) = true → x = a) :
    (l.map f).filter q = [f a] := by
  rw [List.filter_map]
  rw [filter_eq_singleton_of_count_one (q := q ∘ f) hq hcount hall]
  rfl

/-- Same as `filter_map_eq_singleton` after removing duplicates: `a`
occurs once in `l.dedup` as soon as it occurs in `l`. -/
theorem filter_map_dedup_eq_singleton {α β : Type} [DecidableEq α] (f : α → β) (q : β → Bool)
    (l : List α) (a : α) (hq : q (f a) = true) (hmem : a ∈ l)
    (hall : ∀ x ∈ l, q (f x) = true → x = a) :
    ((l.dedup).map f).filter q = [f a] := by
  apply filter_map_eq_singleton f q _ a hq
  · rw [List.count_dedup, if_pos hmem]
  · intro x hx hqx
    exact hall x (List.mem_dedup.mp hx) hqx

/-- Sorting preserves a filter that yields a singleton. -/
theorem filter_insertionSort_eq_singleton {α : Type} (r : α → α → Prop) [DecidableRel r]
    {l : List α} {q : α → Bool} {a : α} (h : l.filter q = [a]) :
    (List.insertionSort r l).filter q = [a] := by
  have hp := (List.perm_insertionSort r l).filter q
  rw [h] at hp
  exact List.perm_singleton.mp hp


/-- Characterisation of the member branch of the assigned-to UNION query. -/
theorem mem_assignedMemberRows_iff {db : DB} {p : Nat} {pred : UserStory → Bool} {r : SqlRow} :
    r ∈ assignedMemberRows db p pred ↔
      ∃ m ∈ db.memberships, m.project_id = p ∧ ∃ u ∈ db.users, m.user_id = some u.id ∧
        r = (some u.id, some u.full_name,
             (filteredCollection db pred).countP (fun us => us.assigned_to_id == some u.id)) := by
  constructor
  · intro hr
    rw [assignedMemberRows, List.mem_flatMap] at hr
    obtain ⟨m, hm, hr⟩ := hr
    rw [List.mem_filter] at hm
    obtain ⟨hmem, hcond⟩ := hm
    rw [Bool.and_eq_true] at hcond
    obtain ⟨hproj, _⟩ := hcond
    rw [List.mem_map] at hr
    obtain ⟨u, hu, hr⟩ := hr
    rw [List.mem_filter] at hu
    obtain ⟨humem, huid⟩ := hu
    have huid' : m.user_id = some u.id := by
      exact beq_iff_eq.mp huid
    refine ⟨m, hmem, beq_iff_eq.mp hproj, u, humem, huid', ?_⟩
    rw [← hr, huid']
  · rintro ⟨m, hmem, hproj, u, humem, huid, hr⟩
    rw [assignedMemberRows, List.mem_flatMap]
    refine ⟨m, ?_, ?_⟩
    · rw [List.mem_filter]
      exact ⟨hmem, by simp [hproj, huid]⟩
    · rw [List.mem_map]
      refine ⟨u, ?_, ?_⟩
      · rw [List.mem_filter]
        exact ⟨humem, by simp [huid]⟩
      · rw [hr, huid]


/-- Comparison with a NULL membership user id never matches, so the
padded right-outer-join rows always count zero stories. -/
theorem countP_sqlEqOpt_none (l : List UserStory) :
    l.countP (fun us => sqlEqOpt us.owner_id none) = 0 := by
  induction l with
  | nil => rfl
  | cons x xs ih => rw [List.countP_cons]; simp [sqlEqOpt, ih]

/-- Every joined owners row either counts zero stories or comes from a
user together with one of its membership rows that the WHERE clause kept. -/
theorem mem_ownersRows_elim {db : DB} {p : Nat} {pred : UserStory → Bool} {r : OwnerFacetRec}
    (hr : r ∈ ownersRows db p pred) :
    r.count = 0 ∨
      ∃ u ∈ db.users, (∃ m ∈ db.memberships, m.user_id = some u.id ∧
          (m.project_id = p ∨ u.is_system = true)) ∧
        r = { id := u.id, full_name := u.full_name,
              count := (filteredCollection db pred).countP
                (fun us => us.owner_id == some u.id) } := by
  rw [ownersRows, List.mem_flatMap] at hr
  obtain ⟨u, hu, hr⟩ := hr
  by_cases hms : (db.memberships.filter (fun m => m.user_id == some u.id)).isEmpty
  · rw [if_pos hms] at hr
    by_cases hsys : u.is_system
    · rw [if_pos hsys, List.mem_singleton] at hr
      left
      rw [hr]
      exact countP_sqlEqOpt_none _
    · rw [if_neg hsys] at hr
      exact absurd hr (List.not_mem_nil r)
  · rw [if_neg hms, List.mem_map] at hr
    obtain ⟨m, hm, hr⟩ := hr
    rw [List.mem_filter] at hm
    obtain ⟨hm', hcond⟩ := hm
    rw [List.mem_filter] at hm'
    obtain ⟨hmem, huid⟩ := hm'
    have huid' : m.user_id = some u.id := beq_iff_eq.mp huid
    right
    refine ⟨u, hu, ⟨m, hmem, huid', ?_⟩, ?_⟩
    · rcases Bool.or_eq_true _ _ |>.mp hcond with h | h
      · exact Or.inl (beq_iff_eq.mp (Bool.and_eq_true _ _ |>.mp h).1)
      · exact Or.inr h
    · rw [← hr, huid']
      rfl

/-- Conversely, every user with a membership row kept by the WHERE clause
contributes its joined row. -/
theorem ownersRows_intro {db : DB} {p : Nat} {pred : UserStory → Bool} {u : User} {m : Membership}
    (hu : u ∈ db.users) (hmem : m ∈ db.memberships) (huid : m.user_id = some u.id)
    (hkeep : m.project_id = p ∨ u.is_system = true) :
    ({ id := u.id, full_name := u.full_name,
       count := (filteredCollection db pred).countP
         (fun us => us.owner_id == some u.id) } : OwnerFacetRec) ∈ ownersRows db p pred := by
  rw [ownersRows, List.mem_flatMap]
  refine ⟨u, hu, ?_⟩
  have hmfilter : m ∈ db.memberships.filter (fun m => m.user_id == some u.id) := by
    rw [List.mem_filter]
    exact ⟨hmem, by simp [huid]⟩
  have hms : ¬ (db.memberships.filter (fun m => m.user_id == some u.id)).isEmpty := by
    intro h
    rw [List.isEmpty_iff] at h
    rw [h] at hmfilter
    exact List.not_mem_nil m hmfilter
  rw [if_neg hms, List.mem_map]
  refine ⟨m, ?_, ?_⟩
  · rw [List.mem_filter]
    refine ⟨hmfilter, ?_⟩
    rcases hkeep with h | h
    · simp [h, huid]
    · simp [h]
  · rw [huid]
    rfl


/-- C6: the statuses facet is non-decreasing in the declared sort order,
and the assigned-to, owners and tags facets are sorted alphabetically
(code-point order) by full name or tag name. -/
theorem facets_sorted (db : DB) (tr : String → String) (p : Nat) (pred : UserStory → Bool)
    (stories : List UserStory) :
    List.Pairwise (fun a b => a.order ≤ b.order) (_get_userstories_statuses db tr p pred)
    ∧ List.Pairwise (fun a b => strLe a.full_name b.full_name = true)
        (_get_userstories_assigned_to db p pred)
    ∧ List.Pairwise (fun a b => strLe a.full_name b.full_name = true)
        (_get_userstories_owners db p pred)
    ∧ List.Pairwise (fun a b => strLe a.name b.name = true)
        (_get_userstories_tags stories) := by
  refine ⟨?_, ?_, ?_, ?_⟩
  · exact @List.sorted_insertionSort StatusFacetRec (fun a b => a.order ≤ b.order) _
      ⟨fun a b => Nat.le_total a.order b.order⟩
      ⟨fun a b c hab hbc => Nat.le_trans hab hbc⟩ _
  · exact @List.sorted_insertionSort PersonFacetRec
      (fun a b => strLe a.full_name b.full_name = true) _
      ⟨fun a b => strLe_total a.full_name b.full_name⟩
      ⟨fun a b c hab hbc => strLe_trans hab hbc⟩ _
  · exact @List.sorted_insertionSort OwnerFacetRec
      (fun a b => strLe a.full_name b.full_name = true) _
      ⟨fun a b => strLe_total a.full_name b.full_name⟩
      ⟨fun a b c hab hbc => strLe_trans hab hbc⟩ _
  · exact @List.sorted_insertionSort TagFacetRec
      (fun a b => strLe a.name b.name = true) _
      ⟨fun a b => strLe_total a.name b.name⟩
      ⟨fun a b c hab hbc => strLe_trans hab hbc⟩ _

/-- C7 (amended): the returned mapping always has exactly the four keys
statuses, assigned_to, owners, tags, in this order, whatever the project
and querysets are. -/
theorem filters_data_four_keys (db : DB) (tr : String → String) (p : Nat) (qs : Querysets) :
    (get_userstories_filters_data db tr p qs).map Prod.fst =
      ["statuses", "assigned_to", "owners", "tags"] := rfl

/-- C10: a user story whose status is null is never computed as closed,
whatever its tasks look like. -/
theorem story_without_status_not_closed (user_story : StoryRec)
    (h : user_story.status = none) :
    calculate_userstory_is_closed user_story = false := by
  rw [calculate_userstory_is_closed, h]

/-- Witness for C10 at a story with one closed task: the null status alone
forces the result to false. -/
theorem story_without_status_not_closed_instance :
    calculate_userstory_is_closed
      { status := none, tasks := [{ status := { is_closed := true } }] } = false :=
  story_without_status_not_closed _ rfl

/-- C9: the wrapper built by `change_instance_attr` restores the
attribute to its pre-call value after the wrapped call whenever the
attribute was readable, and when the read raises `AttributeError` the
wrapper performs no attribute write at all: it behaves exactly as the
bare wrapped function. -/
theorem change_instance_attr_restores {α β : Type} (name : String) (new_value : α)
    (fn : Attrs α → β × Attrs α) (inst : Attrs α) :
    (∀ old, inst name = some old →
      ((change_instance_attr name new_value fn inst).2) name = some old)
    ∧ (inst name = none → change_instance_attr name new_value fn inst = fn inst) := by
  constructor
  · intro old h
    rw [change_instance_attr, h]
    simp [setattr]
  · intro h
    rw [change_instance_attr, h]

/-- Witness for C9: a wrapped function that overwrites attribute `x` with
99 still leaves `x` at its original value 1 after the wrapper returns. -/
theorem change_instance_attr_restores_instance :
    (change_instance_attr "x" 5 (fun s => (0, setattr s "x" 99))
      (fun n => if n = "x" then some (1 : Nat) else none)).2 "x" = some 1 :=
  (change_instance_attr_restores "x" 5 (fun s => (0, setattr s "x" 99))
    (fun n => if n = "x" then some 1 else none)).1 1 rfl

/-- C8: the aggregation is all-or-nothing: either every dimension's query
succeeds and the result is the complete four-key mapping, or the result
is the error of a failing dimension and no partial mapping exists; and on
all-success inputs the fallible composition agrees with
`get_userstories_filters_data`. -/
theorem filters_data_all_or_nothing {ε : Type} (s : Except ε (List StatusFacetRec))
    (a : Except ε (List PersonFacetRec)) (o : Except ε (List OwnerFacetRec))
    (t : Except ε (List TagFacetRec)) (db : DB) (tr : String → String) (p : Nat)
    (qs : Querysets) :
    ((∃ ls la lo lt, s = Except.ok ls ∧ a = Except.ok la ∧ o = Except.ok lo ∧
        t = Except.ok lt ∧
        get_userstories_filters_dataE s a o t =
          Except.ok [("statuses", FilterValue.statuses ls),
                     ("assigned_to", FilterValue.assigned la),
                     ("owners", FilterValue.owners lo),
                     ("tags", FilterValue.tags lt)])
      ∨ (∃ e, get_userstories_filters_dataE s a o t = Except.error e ∧
          (s = Except.error e ∨ a = Except.error e ∨ o = Except.error e ∨ t = Except.error e)))
    ∧ @get_userstories_filters_dataE ε
        (Except.ok (_get_userstories_statuses db tr p qs.statuses))
        (Except.ok (_get_userstories_assigned_to db p qs.assigned_to))
        (Except.ok (_get_userstories_owners db p qs.owners))
        (Except.ok (_get_userstories_tags (db.userstories.filter qs.tags))) =
      Except.ok (get_userstories_filters_data db tr p qs) := by
  constructor
  · cases s with
    | error e => exact Or.inr ⟨e, rfl, Or.inl rfl⟩
    | ok ls =>
      cases a with
      | error e => exact Or.inr ⟨e, rfl, Or.inr (Or.inl rfl)⟩
      | ok la =>
        cases o with
        | error e => exact Or.inr ⟨e, rfl, Or.inr (Or.inr (Or.inl rfl))⟩
        | ok lo =>
          cases t with
          | error e => exact Or.inr ⟨e, rfl, Or.inr (Or.inr (Or.inr rfl))⟩
          | ok lt => exact Or.inl ⟨ls, la, lo, lt, rfl, rfl, rfl, rfl, rfl⟩
  · rfl


/-- C1: for every status of the project the facet has exactly one record,
carrying the translated name, color and order of the status and the count
of filtered stories with that status; and every facet record arises from
such a status. -/
theorem statuses_facet_complete (db : DB) (tr : String → String) (p : Nat)
    (pred : UserStory → Bool) (hnd : (db.statuses.map Status.id).Nodup) :
    (∀ st ∈ db.statuses, st.project_id = p →
       (_get_userstories_statuses db tr p pred).filter (fun r => r.id == st.id) =
         [statusRow db tr pred st])
    ∧ (∀ r ∈ _get_userstories_statuses db tr p pred,
       ∃ st ∈ db.statuses, st.project_id = p ∧ r = statusRow db tr pred st) := by
  have hnodup : db.statuses.Nodup := List.Nodup.of_map _ hnd
  constructor
  · intro st hst hproj
    rw [_get_userstories_statuses]
    apply filter_insertionSort_eq_singleton
    apply filter_map_eq_singleton _ _ _ st
    · exact beq_self_eq_true st.id
    · apply List.count_eq_one_of_mem (List.Nodup.filter _ hnodup)
      rw [List.mem_filter]
      exact ⟨hst, by simp [hproj]⟩
    · intro x hx hqx
      rw [List.mem_filter] at hx
      exact List.inj_on_of_nodup_map hnd hx.1 hst (beq_iff_eq.mp hqx)
  · intro r hr
    rw [_get_userstories_statuses, List.mem_insertionSort, List.mem_map] at hr
    obtain ⟨st, hst, hr⟩ := hr
    rw [List.mem_filter] at hst
    exact ⟨st, hst.1, beq_iff_eq.mp hst.2, hr.symm⟩

/-- Witness for C1 on the concrete store: the status `New` yields exactly
one record and its count is the 2 matching stories. -/
theorem statuses_facet_complete_instance :
    (_get_userstories_statuses exampleDB (fun s => s) 1 (fun _ => true)).filter
      (fun r => r.id == 1) =
      [{ id := 1, name := "New", color := "red", order := 1, count := 2 }] :=
  ((statuses_facet_complete exampleDB (fun s => s) 1 (fun _ => true) (by decide)).1
    { id := 1, name := "New", color := "red", order := 1, project_id := 1 }
    (by decide) rfl).trans (by decide)


/-- C4: the assigned-to facet has exactly one unassigned record (null id,
empty label) counting the filtered stories with no assignee, exactly one
record per project member — zero-count members included — with the
member's id, full name and count of filtered stories assigned to them,
and nothing else. -/
theorem assigned_to_facet_shape (db : DB) (p : Nat) (pred : UserStory → Bool)
    (hnd : (db.users.map User.id).Nodup) :
    ((_get_userstories_assigned_to db p pred).filter (fun r => r.id == none) =
       [{ id := none, full_name := "",
          count := (filteredCollection db pred).countP
            (fun us => us.assigned_to_id == none) }])
    ∧ (∀ u ∈ db.users, (∃ m ∈ db.memberships, m.project_id = p ∧ m.user_id = some u.id) →
       (_get_userstories_assigned_to db p pred).filter (fun r => r.id == some u.id) =
         [{ id := some u.id, full_name := u.full_name,
            count := (filteredCollection db pred).countP
              (fun us => us.assigned_to_id == some u.id) }])
    ∧ (∀ r ∈ _get_userstories_assigned_to db p pred,
       r = { id := none, full_name := "",
             count := (filteredCollection db pred).countP
               (fun us => us.assigned_to_id == none) } ∨
       ∃ u ∈ db.users, (∃ m ∈ db.memberships, m.project_id = p ∧ m.user_id = some u.id) ∧
         r = { id := some u.id, full_name := u.full_name,
               count := (filteredCollection db pred).countP
                 (fun us => us.assigned_to_id == some u.id) }) := by
  refine ⟨?_, ?_, ?_⟩
  · rw [_get_userstories_assigned_to]
    apply filter_insertionSort_eq_singleton
    have h := filter_map_dedup_eq_singleton rowToPerson (fun r => r.id == none)
      (unassignedRow db pred :: assignedMemberRows db p pred) (unassignedRow db pred)
      rfl (List.mem_cons_self _ _) ?_
    · exact h
    · intro x hx hqx
      rcases List.mem_cons.mp hx with hx | hx
      · exact hx
      · obtain ⟨m, _, _, u, _, _, hxeq⟩ := mem_assignedMemberRows_iff.mp hx
        rw [hxeq] at hqx
        simp [rowToPerson] at hqx
  · intro u hu ⟨m, hm, hproj, huid⟩
    rw [_get_userstories_assigned_to]
    apply filter_insertionSort_eq_singleton
    have h := filter_map_dedup_eq_singleton rowToPerson (fun r => r.id == some u.id)
      (unassignedRow db pred :: assignedMemberRows db p pred)
      (some u.id, some u.full_name,
       (filteredCollection db pred).countP (fun us => us.assigned_to_id == some u.id))
      (beq_self_eq_true _) ?_ ?_
    · exact h
    · exact List.mem_cons_of_mem _
        (mem_assignedMemberRows_iff.mpr ⟨m, hm, hproj, u, hu, huid, rfl⟩)
    · intro x hx hqx
      rcases List.mem_cons.mp hx with hx | hx
      · rw [hx] at hqx
        simp [unassignedRow, rowToPerson] at hqx
      · obtain ⟨m', _, _, u', hu', _, hxeq⟩ := mem_assignedMemberRows_iff.mp hx
        rw [hxeq] at hqx
        have hid : u'.id = u.id := by simpa [rowToPerson] using hqx
        have : u' = u := List.inj_on_of_nodup_map hnd hu' hu hid
        rw [hxeq, this]
  · intro r hr
    rw [_get_userstories_assigned_to, List.mem_insertionSort, List.mem_map] at hr
    obtain ⟨x, hx, hr⟩ := hr
    rcases List.mem_cons.mp (List.mem_dedup.mp hx) with hx' | hx'
    · left
      rw [← hr, hx']
      rfl
    · right
      obtain ⟨m, hm, hproj, u, hu, huid, hxeq⟩ := mem_assignedMemberRows_iff.mp hx'
      exact ⟨u, hu, ⟨m, hm, hproj, huid⟩, by rw [← hr, hxeq]; rfl⟩

/-- Witness for C4 on the concrete store: member Bob has zero matching
stories yet exactly one record, with count 0. -/
theorem assigned_to_facet_shape_instance :
    (_get_userstories_assigned_to exampleDB 1 (fun _ => true)).filter
      (fun r => r.id == some 11) =
      [{ id := some 11, full_name := "Bob", count := 0 }] :=
  (((assigned_to_facet_shape exampleDB 1 (fun _ => true) (by decide)).2.1
    { id := 11, full_name := "Bob", is_system := false } (by decide)
    ⟨{ project_id := 1, user_id := some 11 }, by decide, rfl, rfl⟩)).trans (by decide)


/-- Counterexample to C5 as stated: the system account 7 owns one matching
story, yet the owners facet is empty, because the right outer join pads
its row with a NULL membership user id and the correlated count compares
`owner_id` against NULL. -/
theorem owners_facet_drops_membershipless_system_user :
    _get_userstories_owners dbSystemOwner 1 (fun _ => true) = []
    ∧ (dbSystemOwner.users.filter (fun u => u.is_system)).map User.id = [7]
    ∧ (filteredCollection dbSystemOwner (fun _ => true)).countP
        (fun us => us.owner_id == some 7) = 1 := by decide

/-- C5 (amended): an owners-facet record exists for a person iff the
person owns at least one story of the filtered collection and either is a
member of the project or is a system account possessing at least one
membership row in some project (a system account with no membership row
at all never appears); no zero-count record ever appears. -/
theorem owners_facet_members_or_joined_system (db : DB) (p : Nat) (pred : UserStory → Bool) :
    (∀ r ∈ _get_userstories_owners db p pred,
       0 < r.count ∧ ∃ u ∈ db.users,
         r = { id := u.id, full_name := u.full_name,
               count := (filteredCollection db pred).countP
                 (fun us => us.owner_id == some u.id) } ∧
         ((∃ m ∈ db.memberships, m.project_id = p ∧ m.user_id = some u.id) ∨
          (u.is_system = true ∧ ∃ m ∈ db.memberships, m.user_id = some u.id)))
    ∧ (∀ u ∈ db.users,
       ((∃ m ∈ db.memberships, m.project_id = p ∧ m.user_id = some u.id) ∨
        (u.is_system = true ∧ ∃ m ∈ db.memberships, m.user_id = some u.id)) →
       0 < (filteredCollection db pred).countP (fun us => us.owner_id == some u.id) →
       ({ id := u.id, full_name := u.full_name,
          count := (filteredCollection db pred).countP
            (fun us => us.owner_id == some u.id) } : OwnerFacetRec) ∈
         _get_userstories_owners db p pred) := by
  constructor
  · intro r hr
    rw [_get_userstories_owners, List.mem_insertionSort, List.mem_filter] at hr
    obtain ⟨hrows, hpos⟩ := hr
    have hpos' : 0 < r.count := of_decide_eq_true hpos
    refine ⟨hpos', ?_⟩
    rcases mem_ownersRows_elim hrows with h0 | ⟨u, hu, ⟨m, hm, huid, hkeep⟩, hreq⟩
    · omega
    · refine ⟨u, hu, hreq, ?_⟩
      rcases hkeep with h | h
      · exact Or.inl ⟨m, hm, h, huid⟩
      · exact Or.inr ⟨h, m, hm, huid⟩
  · intro u hu hkeep hpos
    rw [_get_userstories_owners, List.mem_insertionSort, List.mem_filter]
    constructor
    · rcases hkeep with ⟨m, hm, hproj, huid⟩ | ⟨hsys, m, hm, huid⟩
      · exact ownersRows_intro hu hm huid (Or.inl hproj)
      · exact ownersRows_intro hu hm huid (Or.inr hsys)
    · exact decide_eq_true hpos

/-- Witness for C5 (amended) on the concrete store: member Alice owns two
matching stories and appears in the owners facet. -/
theorem owners_facet_members_instance :
    ({ id := 10, full_name := "Alice", count := 2 } : OwnerFacetRec) ∈
      _get_userstories_owners exampleDB 1 (fun _ => true) :=
  (owners_facet_members_or_joined_system exampleDB 1 (fun _ => true)).2
    { id := 10, full_name := "Alice", is_system := false } (by decide)
    (Or.inl ⟨{ project_id := 1, user_id := some 10 }, by decide, rfl, rfl⟩) (by decide)


/-- Counterexample to C2 as stated: with a predicate broader than the
project, Alice's assigned-to count of project 1 is 1 although project 1
contains no story at all — the story of project 2 contributes, because
the count subqueries never constrain the story's project. -/
theorem assigned_count_not_project_scoped :
    (∃ r ∈ _get_userstories_assigned_to dbCross 1 (fun _ => true),
       r.id = some 10 ∧ r.count = 1)
    ∧ (dbCross.userstories.filter (fun us => us.project_id == 1)).length = 0 := by decide

/-- C2 (amended): every facet count ranges over the dimension's whole
filtered collection — stories of other projects included whenever the
predicate admits them; the project argument only selects which statuses
and which members are enumerated. -/
theorem facet_counts_follow_queryset (db : DB) (tr : String → String) (p : Nat)
    (pred : UserStory → Bool) :
    (∀ r ∈ _get_userstories_statuses db tr p pred,
       r.count = (filteredCollection db pred).countP (fun us => us.status_id == some r.id))
    ∧ (∀ r ∈ _get_userstories_assigned_to db p pred,
       r.count = (filteredCollection db pred).countP (fun us => us.assigned_to_id == r.id))
    ∧ (∀ r ∈ _get_userstories_owners db p pred,
       r.count = (filteredCollection db pred).countP (fun us => us.owner_id == some r.id)) := by
  refine ⟨?_, ?_, ?_⟩
  · intro r hr
    rw [_get_userstories_statuses, List.mem_insertionSort, List.mem_map] at hr
    obtain ⟨st, _, hr⟩ := hr
    rw [← hr]
    rfl
  · intro r hr
    rw [_get_userstories_assigned_to, List.mem_insertionSort, List.mem_map] at hr
    obtain ⟨x, hx, hr⟩ := hr
    rcases List.mem_cons.mp (List.mem_dedup.mp hx) with hx' | hx'
    · rw [← hr, hx']
      rfl
    · obtain ⟨m, _, _, u, _, _, hxeq⟩ := mem_assignedMemberRows_iff.mp hx'
      rw [← hr, hxeq]
      rfl
  · intro r hr
    rw [_get_userstories_owners, List.mem_insertionSort, List.mem_filter] at hr
    obtain ⟨hrows, hpos⟩ := hr
    rcases mem_ownersRows_elim hrows with h0 | ⟨u, _, _, hreq⟩
    · have := of_decide_eq_true hpos
      omega
    · rw [hreq]

/-- Witness for C2 (amended) on the cross-project store: Alice's record
count equals the whole-collection count of stories assigned to her. -/
theorem facet_counts_follow_queryset_instance :
    ({ id := some 10, full_name := "Alice", count := 1 } : PersonFacetRec).count
      = (filteredCollection dbCross (fun _ => true)).countP
          (fun us => us.assigned_to_id == some 10) :=
  (facet_counts_follow_queryset dbCross (fun s => s) 1 (fun _ => true)).2.1
    { id := some 10, full_name := "Alice", count := 1 } (by decide)


/-- When every story's tag list is duplicate-free, the number of
occurrences of a tag in the flattened list equals the number of stories
whose tag list contains it. -/
theorem count_allTags (t : String) : ∀ (stories : List UserStory),
    (∀ s ∈ stories, ∀ l, s.tags = some l → l.Nodup) →
    List.count t (allTags stories) =
      stories.countP (fun s => (s.tags.getD []).contains t) := by
  intro stories
  induction stories with
  | nil => intro _; rfl
  | cons s ss ih =>
    intro h
    rw [show allTags (s :: ss) = (s.tags.getD []) ++ allTags ss from
          List.flatMap_cons s ss _,
        List.count_append, List.countP_cons,
        ih (fun x hx l hl => h x (List.mem_cons_of_mem s hx) l hl)]
    suffices hone : List.count t (s.tags.getD []) =
        if (s.tags.getD []).contains t = true then 1 else 0 by omega
    by_cases hc : t ∈ s.tags.getD []
    · have hnodup : (s.tags.getD []).Nodup := by
        cases htags : s.tags with
        | none => exact List.nodup_nil
        | some l => exact h s (List.mem_cons_self s ss) l htags
      rw [List.count_eq_one_of_mem hnodup hc, if_pos (List.elem_iff.mpr hc)]
    · rw [List.count_eq_zero.mpr hc, if_neg (fun hcon => hc (List.elem_iff.mp hcon))]

/-- C3: when each story's tag list is a set (no duplicates), the tags
facet has exactly one record for every tag occurring in the collection
and no record for any other tag, and that record's count is the number of
stories whose tags contain it; stories with a null or empty tag list
contribute to no count. -/
theorem tags_facet_counts (stories : List UserStory) (t : String)
    (hnd : ∀ s ∈ stories, ∀ l, s.tags = some l → l.Nodup) :
    ((_get_userstories_tags stories).countP (fun r => r.name == t) =
       if t ∈ allTags stories then 1 else 0)
    ∧ (∀ r ∈ _get_userstories_tags stories, r.name = t →
       r.count = stories.countP (fun s => (s.tags.getD []).contains t)) := by
  constructor
  · rw [_get_userstories_tags]
    rw [(List.perm_insertionSort _ _).countP_eq]
    rw [List.countP_map]
    have : List.countP ((fun r : TagFacetRec => r.name == t) ∘
        (fun e => { name := e, count := (allTags stories).count e }))
        (allTags stories).dedup = List.count t (allTags stories).dedup := rfl
    rw [this, List.count_dedup]
  · intro r hr hname
    rw [_get_userstories_tags, List.mem_insertionSort, List.mem_map] at hr
    obtain ⟨e, _, hr⟩ := hr
    have hre : r.count = (allTags stories).count e := by rw [← hr]
    have het : e = t := by rw [← hr] at hname; exact hname
    rw [hre, het, count_allTags t stories hnd]

/-- Witness for C3 on the concrete store: tag `bug` has exactly one
record and the 2 stories tagged with it. -/
theorem tags_facet_counts_instance :
    (_get_userstories_tags exampleDB.userstories).countP (fun r => r.name == "bug") = 1 := by
  have h := (tags_facet_counts exampleDB.userstories "bug" (by decide)).1
  rw [if_pos (by decide)] at h
  exact h


/-- Counterexample to C7 as stated: with every filtered collection empty,
the statuses key is still present but its value is a non-empty sequence —
a zero-count record per project status — not the empty sequence the claim
asserts. -/
theorem filters_data_empty_value_not_empty :
    dbOneStatus.userstories = []
    ∧ ((get_userstories_filters_data dbOneStatus (fun s => s) 1 qsNone).lookup "statuses" =
        some (FilterValue.statuses
          [{ id := 1, name := "New", color := "red", order := 1, count := 0 }]))
    ∧ ((get_userstories_filters_data dbOneStatus (fun s => s) 1 qsNone).lookup "statuses" ≠
        some (FilterValue.statuses [])) := by decide

end Taiga
